import Mathlib

/-!
Shallow embedding of the Recipe-to-Pantry Reconciliation Core of pantryBot.

Sources embedded here:
- src/services/unit-conversion.service.ts (tryConvert, UNIT_MAP, ALIASES, normalize)
- src/services/grocery.service.ts (classifyIngredients)
- src/services/cooking.service.ts (findPantryMatch, previewCook, confirmCook)
- src/services/pantry.service.ts (deductQuantity)

Numbers are modelled as rationals; nullable DB columns as Option; JS
string falsiness (null or "") as either Option.none or the empty string,
as noted at each definition.
-/

namespace PantryBot

/-- `.trim()` on a character list: drop whitespace from both ends. -/
def trimList (l : List Char) : List Char :=
  ((l.dropWhile Char.isWhitespace).reverse.dropWhile Char.isWhitespace).reverse

/-- JS `.toLowerCase().trim()` (every name in this code base is ASCII, where
`Char.toLower` agrees with JS `toLowerCase`). Defined over the character
list so that it evaluates by kernel reduction. -/
def lowerTrim (s : String) : String :=
  String.mk (trimList (s.data.map Char.toLower))

-- ── Unit Algebra: unit-conversion.service.ts ────────────────────────────────

inductive UnitGroup
  | volume
  | weight
  | count
deriving DecidableEq

structure UnitDef where
  group : UnitGroup
  toBase : ℚ
deriving DecidableEq

/-- The UNIT_MAP record of unit-conversion.service.ts, as an association list
(JS object key lookup = first association with that exact key). -/
def unitEntries : List (String × UnitDef) := [
  ("tsp", ⟨.volume, 4929/1000⟩),
  ("tbsp", ⟨.volume, 14787/1000⟩),
  ("fl oz", ⟨.volume, 29574/1000⟩),
  ("cup", ⟨.volume, 236588/1000⟩),
  ("ml", ⟨.volume, 1⟩),
  ("l", ⟨.volume, 1000⟩),
  ("g", ⟨.weight, 1⟩),
  ("kg", ⟨.weight, 1000⟩),
  ("oz", ⟨.weight, 283495/10000⟩),
  ("lb", ⟨.weight, 453592/1000⟩),
  ("piece", ⟨.count, 1⟩),
  ("each", ⟨.count, 1⟩),
  ("bunch", ⟨.count, 1⟩),
  ("can", ⟨.count, 1⟩),
  ("bag", ⟨.count, 1⟩),
  ("box", ⟨.count, 1⟩),
  ("bottle", ⟨.count, 1⟩),
  ("jar", ⟨.count, 1⟩)]

def UNIT_MAP (u : String) : Option UnitDef :=
  (unitEntries.find? (fun p => p.1 == u)).map Prod.snd

/-- The ALIASES record of unit-conversion.service.ts. -/
def aliasEntries : List (String × String) := [
  ("teaspoon", "tsp"),
  ("teaspoons", "tsp"),
  ("tablespoon", "tbsp"),
  ("tablespoons", "tbsp"),
  ("fluid ounce", "fl oz"),
  ("fluid ounces", "fl oz"),
  ("cups", "cup"),
  ("milliliter", "ml"),
  ("milliliters", "ml"),
  ("millilitre", "ml"),
  ("millilitres", "ml"),
  ("liter", "l"),
  ("liters", "l"),
  ("litre", "l"),
  ("litres", "l"),
  ("gram", "g"),
  ("grams", "g"),
  ("kilogram", "kg"),
  ("kilograms", "kg"),
  ("ounce", "oz"),
  ("ounces", "oz"),
  ("pound", "lb"),
  ("pounds", "lb"),
  ("lbs", "lb"),
  ("pieces", "piece"),
  ("bunches", "bunch"),
  ("cans", "can"),
  ("bags", "bag"),
  ("boxes", "box"),
  ("bottles", "bottle"),
  ("jars", "jar")]

/-- `normalize` of unit-conversion.service.ts: lowercases, trims, then
resolves the alias table (`ALIASES[lower] || lower`; no alias value is the
empty string, so JS falsiness coincides with lookup failure). -/
def normalize (unit : String) : String :=
  let lower := lowerTrim unit
  ((aliasEntries.find? (fun p => p.1 == lower)).map Prod.snd).getD lower

/-- `tryConvert` of unit-conversion.service.ts. -/
def tryConvert (amount : ℚ) (fromUnit toUnit : String) : Option ℚ :=
  let from1 := normalize fromUnit
  let to1 := normalize toUnit
  if from1 = to1 then some amount
  else
    match UNIT_MAP from1, UNIT_MAP to1 with
    | some fromDef, some toDef =>
      if fromDef.group ≠ toDef.group then none
      else if fromDef.group = UnitGroup.count ∧ from1 ≠ to1 then none
      else some (amount * fromDef.toBase / toDef.toBase)
    | _, _ => none

-- ── Word-boundary matching ──────────────────────────────────────────────────

/-- JS regex word character class \w (no unicode flag): [A-Za-z0-9_]. -/
def isWordChar (c : Char) : Bool := c.isAlphanum || c = '_'

def wordAt (text : List Char) (i : Nat) : Bool :=
  match text.get? i with
  | some c => isWordChar c
  | none => false

/-- The JS \b assertion at position `i` of `text`: the characters on either
side of the position differ in word-ness (out of range counts as non-word). -/
def boundaryAt (text : List Char) (i : Nat) : Bool :=
  match i with
  | 0 => wordAt text 0
  | j + 1 => wordAt text j != wordAt text (j + 1)

def litMatchAt (pat text : List Char) (i : Nat) : Bool :=
  decide (List.take pat.length (List.drop i text) = pat)

/-- Semantics of `new RegExp("\\b" + escapeRegex(pat) + "\\b", "i").test(text)`
for an already-lowercased pattern and text: `escapeRegex` escapes every
regex metacharacter, so the pattern is the literal string `pat`, guarded by
word boundaries. -/
def wordBoundaryTest (pat text : List Char) : Bool :=
  (List.range (text.length + 1)).any (fun i =>
    litMatchAt pat text i && boundaryAt text i && boundaryAt text (i + pat.length))

/-- The two regex tests shared by `findPantryMatch` (cooking.service.ts) and
`classifyIngredients` (grocery.service.ts):
`pantryRegex.test(ingredient) || ingredientRegex.test(pantry)`, i.e. one
name occurs as a whole word inside the other. Both arguments are expected
to be lowercased and trimmed, as at the call sites. -/
def wordHit (pantryName ingredientName : String) : Bool :=
  wordBoundaryTest pantryName.toList ingredientName.toList ||
    wordBoundaryTest ingredientName.toList pantryName.toList

-- ── Data model ──────────────────────────────────────────────────────────────

/-- A pantry record (pantryItems table). `quantity` and `originalQuantity`
are decimal strings in the DB, nullable; modelled as Option ℚ (none = NULL;
a stored decimal string is never the empty string, so JS falsiness of the
column coincides with NULL). `unit` is nullable text: none models NULL,
and the empty string is also JS-falsy where the code tests it. -/
structure PantryItem where
  id : Nat
  name : String
  quantity : Option ℚ
  unit : Option String
  isStaple : Nat
  originalQuantity : Option ℚ
deriving DecidableEq

structure RecipeIngredient where
  name : Option String
  original : Option String
  amount : Option ℚ
  unit : Option String
deriving DecidableEq

structure NamedItem where
  name : String
deriving DecidableEq

/-- JS `a || b` on an optional string: falsy = undefined/null or "". -/
def jsOrStr (a : Option String) (b : String) : String :=
  match a with
  | some s => if s = "" then b else s
  | none => b

/-- JS truthiness of an optional number: falsy = undefined/null or 0. -/
def jsTruthy (a : Option ℚ) : Bool :=
  match a with
  | some x => x != 0
  | none => false

/-- JS `a || b` on an optional number. -/
def jsOrNum (a : Option ℚ) (b : ℚ) : ℚ :=
  match a with
  | some x => if x = 0 then b else x
  | none => b

-- ── Ingredient Matcher: classifyIngredients of grocery.service.ts ──────────

/-- The output of `classifyIngredients`. The source's second field is named
with the Lean keyword for incomplete matches; here it is `semiMatched`. -/
structure ClassifiedIngredients where
  missing : List RecipeIngredient
  semiMatched : List (RecipeIngredient × String)
  matched : List RecipeIngredient
deriving DecidableEq

/-- `(ingredient.name || ingredient.original || "").toLowerCase().trim()`. -/
def ingredientKey (ing : RecipeIngredient) : String :=
  lowerTrim (jsOrStr ing.name (jsOrStr ing.original ""))

/-- `pantryItems.find(p => p.name.toLowerCase().trim() === pantryName)!.name`:
the display name of the first pantry item whose normalized name is
`pantryName` (always found at the call sites, so the default is inert). -/
def displayNameFor (pantryItems : List NamedItem) (pantryName : String) : String :=
  ((pantryItems.find? (fun p => lowerTrim p.name == pantryName)).map
    (fun p => p.name)).getD ""

/-- The inner loop of `classifyIngredients` over `pantryNames`: breaks on an
exact match, otherwise overwrites the incomplete-match accumulator on every
word-boundary hit. Returns (exactMatch, accumulator). -/
def classifyScan (pantryItems : List NamedItem) (ingredientName : String) :
    List String → Option String → Bool × Option String
  | [], semi => (false, semi)
  | pantryName :: rest, semi =>
    if ingredientName = pantryName then (true, semi)
    else
      classifyScan pantryItems ingredientName rest
        (if wordHit pantryName ingredientName
         then some (displayNameFor pantryItems pantryName)
         else semi)

/-- One iteration of the `classifyIngredients` outer loop. -/
def classifyStep (pantryItems : List NamedItem) (pantryNames : List String)
    (result : ClassifiedIngredients) (ingredient : RecipeIngredient) :
    ClassifiedIngredients :=
  let ingredientName := ingredientKey ingredient
  if ingredientName = "" then
    { result with missing := result.missing ++ [ingredient] }
  else
    match classifyScan pantryItems ingredientName pantryNames none with
    | (true, _) => { result with matched := result.matched ++ [ingredient] }
    | (false, some semi) =>
        { result with semiMatched := result.semiMatched ++ [(ingredient, semi)] }
    | (false, none) => { result with missing := result.missing ++ [ingredient] }

/-- `classifyIngredients` of grocery.service.ts. -/
def classifyIngredients (recipeIngredients : List RecipeIngredient)
    (pantryItems : List NamedItem) : ClassifiedIngredients :=
  recipeIngredients.foldl
    (classifyStep pantryItems (pantryItems.map (fun p => lowerTrim p.name)))
    ⟨[], [], []⟩

-- ── Reconciliation Engine: cooking.service.ts ───────────────────────────────

/-- `findPantryMatch` of cooking.service.ts: exact match first, then the
word-boundary test, first hit wins in each pass. -/
def findPantryMatch (ingredientName : String) (pantryItems : List PantryItem) :
    Option PantryItem :=
  let lower := lowerTrim ingredientName
  if lower = "" then none
  else
    match pantryItems.find? (fun item => lowerTrim item.name == lower) with
    | some item => some item
    | none => pantryItems.find? (fun item => wordHit (lowerTrim item.name) lower)

structure Deduction where
  pantryItemId : Nat
  pantryItemName : String
  ingredientName : String
  amountDeducted : ℚ
  unit : String
  oldQuantity : ℚ
  newQuantity : ℚ
deriving DecidableEq

structure SkippedItem where
  ingredientName : String
  reason : String
deriving DecidableEq

structure ReplenishItem where
  name : String
  currentQuantity : ℚ
  originalQuantity : ℚ
  unit : String
deriving DecidableEq

structure Recipe where
  id : Nat
  title : String
  servings : Option ℚ
  ingredientsJson : List RecipeIngredient
deriving DecidableEq

structure CookPreview where
  recipeId : Nat
  recipeTitle : String
  recipeServings : Option ℚ
  requestedServings : ℚ
  deductions : List Deduction
  skipped : List SkippedItem
  replenishItems : List ReplenishItem
deriving DecidableEq

/-- `Math.round(x * 100) / 100`: round to 2 decimal places, halves up. -/
def round2 (q : ℚ) : ℚ := (⌊q * 100 + 1/2⌋ : ℚ) / 100

/-- `servings || recipe.servings || 1` (cooking.service.ts line 247). -/
def requestedServingsOf (recipe : Recipe) (servings : Option ℚ) : ℚ :=
  jsOrNum servings (jsOrNum recipe.servings 1)

/-- `recipe.servings && recipe.servings > 0 ? requestedServings / recipe.servings : 1`
(a positive number is in particular truthy, so the truthiness conjunct of
the source condition collapses into the positivity test). -/
def scaleOf (recipe : Recipe) (servings : Option ℚ) : ℚ :=
  match recipe.servings with
  | some s => if 0 < s then requestedServingsOf recipe servings / s else 1
  | none => 1

/-- `ingredient.name || ingredient.original || "unknown ingredient"`. -/
def cookIngredientName (ing : RecipeIngredient) : String :=
  jsOrStr ing.name (jsOrStr ing.original "unknown ingredient")

/-- The deduction amount for one ingredient: the scaled amount as-is when
the recipe unit is empty or equal to the pantry unit, otherwise the unit
conversion (none = incompatible). -/
def deductAmountOf (scale : ℚ) (ing : RecipeIngredient) (pantryUnit : String) :
    Option ℚ :=
  let scaledAmount := (ing.amount.getD 0) * scale
  let recipeUnit := jsOrStr ing.unit ""
  if recipeUnit = "" ∨ recipeUnit = pantryUnit then some scaledAmount
  else tryConvert scaledAmount recipeUnit pantryUnit

def incompatibleReason (recipeUnit pantryUnit : String) : String :=
  "Incompatible units: recipe uses \"" ++ recipeUnit ++ "\", pantry has \"" ++
    pantryUnit ++ "\""

/-- The outcome of the previewCook loop body for one ingredient: either a
skip record, or a deduction together with an optional replenish candidate. -/
inductive StepResult where
  | skip : SkippedItem → StepResult
  | deduct : Deduction → Option ReplenishItem → StepResult
deriving DecidableEq

/-- The body of the previewCook loop (cooking.service.ts lines 257-333). -/
def processIngredient (scale : ℚ) (pantryItems : List PantryItem)
    (ing : RecipeIngredient) : StepResult :=
  let ingredientName := cookIngredientName ing
  if ¬ jsTruthy ing.amount then
    .skip ⟨ingredientName, "No amount specified (used but not tracked)"⟩
  else
    match findPantryMatch ingredientName pantryItems with
    | none => .skip ⟨ingredientName, "Not found in pantry"⟩
    | some pantryItem =>
      match pantryItem.quantity, pantryItem.unit with
      | some qty, some pantryUnit =>
        if pantryUnit = "" then
          .skip ⟨ingredientName, "Pantry item has no quantity/unit set"⟩
        else
          match deductAmountOf scale ing pantryUnit with
          | none =>
              .skip ⟨ingredientName, incompatibleReason (jsOrStr ing.unit "") pantryUnit⟩
          | some deductAmount =>
            let oldQuantity := qty
            let newQuantity := max 0 (oldQuantity - deductAmount)
            let originalQuantity := pantryItem.originalQuantity.getD oldQuantity
            .deduct
              ⟨pantryItem.id, pantryItem.name, ingredientName,
                round2 deductAmount, pantryUnit, oldQuantity, round2 newQuantity⟩
              (if pantryItem.isStaple = 1 ∧ newQuantity < (9/10) * originalQuantity
               then some ⟨pantryItem.name, round2 newQuantity, originalQuantity, pantryUnit⟩
               else none)
      | _, _ => .skip ⟨ingredientName, "Pantry item has no quantity/unit set"⟩

/-- `previewCook` of cooking.service.ts, given the recipe row found for the
user and the user's inventory snapshot (the surrounding recipe lookup and
its not-found sentinel live at the DB boundary). -/
def previewStep (scale : ℚ) (pantryItems : List PantryItem)
    (acc : CookPreview) (ing : RecipeIngredient) : CookPreview :=
  match processIngredient scale pantryItems ing with
  | .skip s => { acc with skipped := acc.skipped ++ [s] }
  | .deduct d rep =>
    { acc with
        deductions := acc.deductions ++ [d],
        replenishItems := acc.replenishItems ++ rep.toList }

def previewCookCore (recipe : Recipe) (pantryItems : List PantryItem)
    (servings : Option ℚ) : CookPreview :=
  recipe.ingredientsJson.foldl
    (previewStep (scaleOf recipe servings) pantryItems)
    { recipeId := recipe.id, recipeTitle := recipe.title,
      recipeServings := recipe.servings,
      requestedServings := requestedServingsOf recipe servings,
      deductions := [], skipped := [], replenishItems := [] }

-- ── Inventory Store: pantry.service.ts deductQuantity ──────────────────────

structure DeductResult where
  item : PantryItem
  oldQuantity : ℚ
  newQuantity : ℚ
  originalQuantity : ℚ
deriving DecidableEq

/-- `deductQuantity` of pantry.service.ts over a user's store (the userId
scoping is the selection of the store): recomputes old/new quantity from
the current record, floors at zero, snapshots originalQuantity when unset,
and returns the pre-update item together with the recomputed numbers, or
none when the item does not exist. -/
def deductQuantity (store : List PantryItem) (id : Nat) (amount : ℚ) :
    Option (DeductResult × List PantryItem) :=
  match store.find? (fun it => it.id == id) with
  | none => none
  | some item =>
    let oldQuantity := item.quantity.getD 0
    let newQuantity := max 0 (oldQuantity - amount)
    let updated : PantryItem :=
      { item with
          quantity := some newQuantity,
          originalQuantity :=
            match item.originalQuantity with
            | none => some oldQuantity
            | some q => some q }
    some (⟨item, oldQuantity, newQuantity, item.originalQuantity.getD oldQuantity⟩,
      store.map (fun it => if it.id = id then updated else it))

-- ── Commit phase of confirmCook ─────────────────────────────────────────────

structure CommitPhase where
  executed : List Deduction
  replenish : List ReplenishItem
  store : List PantryItem
deriving DecidableEq

/-- The deduction-execution loop of `confirmCook` (cooking.service.ts lines
362-389): each previewed deduction is handed to the Inventory Store; on
success the executed deduction takes oldQuantity/newQuantity from the
store's response and the staple threshold is re-checked on the store's
returned values; on a none response the deduction is dropped. -/
def commitDeductions : List PantryItem → List Deduction → CommitPhase
  | store, [] => ⟨[], [], store⟩
  | store, d :: rest =>
    match deductQuantity store d.pantryItemId d.amountDeducted with
    | none => commitDeductions store rest
    | some (result, store2) =>
      let tail := commitDeductions store2 rest
      ⟨{ d with oldQuantity := result.oldQuantity, newQuantity := result.newQuantity }
          :: tail.executed,
        (if result.item.isStaple = 1 ∧
            result.newQuantity < (9/10) * result.originalQuantity
         then [⟨result.item.name, round2 result.newQuantity, result.originalQuantity,
                jsOrStr result.item.unit ""⟩]
         else []) ++ tail.replenish,
        tail.store⟩

-- ── Replenishment Dispatcher append step ────────────────────────────────────

structure GroceryItem where
  name : String
  amount : ℚ
  unit : String
  sourceRecipeTitle : String
deriving DecidableEq

/-- The duplicate-filtering append of `confirmCook` (cooking.service.ts lines
397-414): drop every replenish candidate whose lowercased trimmed name is
already the normalized name of an existing list item; each survivor is
appended carrying amount = its originalQuantity and the recipe title. -/
def replenishAppendStep (existingItems : List GroceryItem)
    (replenishItems : List ReplenishItem) (recipeTitle : String) : List GroceryItem :=
  let existingNames := existingItems.map (fun i => lowerTrim i.name)
  (replenishItems.filter
      (fun item => ! existingNames.contains (lowerTrim item.name))).map
    (fun item => ⟨item.name, item.originalQuantity, item.unit, recipeTitle⟩)

structure CookResult extends CookPreview where
  autoReplenishListId : Option Nat
deriving DecidableEq

/-- `confirmCook` of cooking.service.ts, over an explicit store and shopping
list: runs the preview, executes its deductions against the store, and when
any replenish candidate was confirmed resolves the auto-replenish list
(modelled by `listId`) and appends the non-duplicate candidates. Returns
the result together with the final store and list contents. -/
def confirmCookCore (recipe : Recipe) (store : List PantryItem)
    (existingList : List GroceryItem) (listId : Nat) (servings : Option ℚ) :
    CookResult × List PantryItem × List GroceryItem :=
  let preview := previewCookCore recipe store servings
  let phase := commitDeductions store preview.deductions
  if phase.replenish.length > 0 then
    ({ toCookPreview :=
        { preview with deductions := phase.executed, replenishItems := phase.replenish },
       autoReplenishListId := some listId },
     phase.store,
     existingList ++ replenishAppendStep existingList phase.replenish recipe.title)
  else
    ({ toCookPreview :=
        { preview with deductions := phase.executed, replenishItems := phase.replenish },
       autoReplenishListId := none },
     phase.store, existingList)

-- ── Helper lemmas: unit algebra ─────────────────────────────────────────────

theorem UNIT_MAP_toBase_pos (u : String) (d : UnitDef) (h : UNIT_MAP u = some d) :
    0 < d.toBase := by
  unfold UNIT_MAP at h
  cases hf : unitEntries.find? (fun p => p.1 == u) with
  | none => rw [hf] at h; cases h
  | some p =>
    rw [hf] at h
    cases h
    have hmem := List.mem_of_find?_eq_some hf
    have hall : ∀ q ∈ unitEntries, 0 < q.2.toBase := by
      intro q hq
      fin_cases hq <;> norm_num
    exact hall p hmem

-- ── Theorems: unit algebra claims ───────────────────────────────────────────

/-- C8: whenever `tryConvert` succeeds in one direction, converting the
result back with the units swapped succeeds and returns the original
amount exactly (the arithmetic is exact over ℚ, so "up to rounding" holds
with zero error). -/
theorem tryConvert_round_trip (a b : ℚ) (u1 u2 : String)
    (h : tryConvert a u1 u2 = some b) : tryConvert b u2 u1 = some a := by
  unfold tryConvert at h ⊢
  by_cases heq : normalize u1 = normalize u2
  · rw [if_pos heq] at h
    rw [if_pos heq.symm]
    cases h
    rfl
  · rw [if_neg heq] at h
    rw [if_neg (Ne.symm heq)]
    cases hf : UNIT_MAP (normalize u1) with
    | none => rw [hf] at h; cases h
    | some fd =>
      cases ht : UNIT_MAP (normalize u2) with
      | none => rw [hf, ht] at h; cases h
      | some td =>
        simp only [hf, ht] at h ⊢
        by_cases hg : fd.group = td.group
        · rw [if_neg (by simpa using hg)] at h
          by_cases hc : fd.group = UnitGroup.count
          · rw [if_pos ⟨hc, heq⟩] at h; cases h
          · rw [if_neg (by tauto)] at h
            injection h with hb
            rw [if_neg (by simpa using hg.symm)]
            rw [if_neg (by rw [← hg]; tauto)]
            have hf0 : fd.toBase ≠ 0 := ne_of_gt (UNIT_MAP_toBase_pos _ _ hf)
            have ht0 : td.toBase ≠ 0 := ne_of_gt (UNIT_MAP_toBase_pos _ _ ht)
            rw [← hb]
            congr 1
            field_simp
        · rw [if_pos (by simpa using hg)] at h; cases h

/-- C8 witness: a concrete successful conversion, converted back. -/
theorem tryConvert_round_trip_witness : tryConvert 2 "tsp" "teaspoons" = some 2 :=
  tryConvert_round_trip 2 2 "teaspoons" "tsp" (by decide)

/-- C7 counterexample: two occurrences of the same unrecognized unit are
normalized to the same string, so `tryConvert` returns the amount unchanged
even though the unit is unrecognized — the claim's "fails whenever either
normalized unit is unrecognized" is false as stated. -/
theorem tryConvert_unrecognized_identity_cex :
    UNIT_MAP (normalize "blob") = none ∧ tryConvert 5 "blob" "blob" = some 5 := by
  exact ⟨by decide, by decide⟩

/-- C7 (amended): when the two units normalize to different canonical
names, `tryConvert` fails (returns none, never throws) whenever either
normalized unit is unrecognized, the two units belong to different groups,
or both are count units (necessarily of different kinds here); in
particular the cup→g, g→ml and can→bag conversions fail for every amount. -/
theorem tryConvert_incompatible_none :
    (∀ (a : ℚ) (u1 u2 : String), normalize u1 ≠ normalize u2 →
      (UNIT_MAP (normalize u1) = none ∨ UNIT_MAP (normalize u2) = none ∨
        (∃ d1 d2, UNIT_MAP (normalize u1) = some d1 ∧
          UNIT_MAP (normalize u2) = some d2 ∧
          (d1.group ≠ d2.group ∨ d1.group = UnitGroup.count))) →
      tryConvert a u1 u2 = none) ∧
    (∀ a : ℚ, tryConvert a "cup" "g" = none ∧ tryConvert a "g" "ml" = none ∧
      tryConvert a "can" "bag" = none) := by
  have main : ∀ (a : ℚ) (u1 u2 : String), normalize u1 ≠ normalize u2 →
      (UNIT_MAP (normalize u1) = none ∨ UNIT_MAP (normalize u2) = none ∨
        (∃ d1 d2, UNIT_MAP (normalize u1) = some d1 ∧
          UNIT_MAP (normalize u2) = some d2 ∧
          (d1.group ≠ d2.group ∨ d1.group = UnitGroup.count))) →
      tryConvert a u1 u2 = none := by
    intro a u1 u2 hne hcase
    unfold tryConvert
    rw [if_neg hne]
    rcases hcase with h | h | ⟨d1, d2, h1, h2, hg⟩
    · simp only [h]
    · cases hu : UNIT_MAP (normalize u1) <;> simp only [h, hu]
    · simp only [h1, h2]
      rcases hg with hgne | hcnt
      · rw [if_pos hgne]
      · by_cases hgeq : d1.group = d2.group
        · rw [if_neg (by simpa using hgeq), if_pos ⟨hcnt, hne⟩]
        · rw [if_pos hgeq]
  refine ⟨main, fun a => ⟨?_, ?_, ?_⟩⟩
  · exact main a "cup" "g" (by decide)
      (Or.inr (Or.inr ⟨⟨.volume, 236588/1000⟩, ⟨.weight, 1⟩, rfl, rfl,
        Or.inl (by decide)⟩))
  · exact main a "g" "ml" (by decide)
      (Or.inr (Or.inr ⟨⟨.weight, 1⟩, ⟨.volume, 1⟩, rfl, rfl, Or.inl (by decide)⟩))
  · exact main a "can" "bag" (by decide)
      (Or.inr (Or.inr ⟨⟨.count, 1⟩, ⟨.count, 1⟩, rfl, rfl, Or.inr rfl⟩))

/-- C7 (amended) witness: the hypotheses hold at cup→g with amount 1. -/
theorem tryConvert_incompatible_none_witness : tryConvert 1 "cup" "g" = none :=
  (tryConvert_incompatible_none.2 1).1

-- ── Helper lemmas: classifier scan ──────────────────────────────────────────

/-- What the overwrite-on-hit accumulator of the classify scan ends at:
the display name of the last word-boundary hit, else the starting value. -/
def lastHitAcc (pantryItems : List NamedItem) (ing : String)
    (names : List String) (acc : Option String) : Option String :=
  match (names.filter (fun pn => wordHit pn ing)).getLast? with
  | some pn => some (displayNameFor pantryItems pn)
  | none => acc

theorem classifyScan_false_char (pi : List NamedItem) (ing : String) :
    ∀ (names : List String) (acc res : Option String),
      classifyScan pi ing names acc = (false, res) →
      res = lastHitAcc pi ing names acc := by
  intro names
  induction names with
  | nil =>
    intro acc res h
    simp only [classifyScan, Prod.mk.injEq] at h
    simp [lastHitAcc, h.2]
  | cons pn rest ih =>
    intro acc res h
    rw [classifyScan] at h
    by_cases he : ing = pn
    · rw [if_pos he] at h
      cases h
    · rw [if_neg he] at h
      have := ih _ _ h
      rw [this]
      unfold lastHitAcc
      by_cases hw : wordHit pn ing
      · rw [List.filter_cons_of_pos (by simpa using hw), if_pos hw]
        cases hfr : (rest.filter (fun q => wordHit q ing)).getLast? with
        | none =>
          have hnil : rest.filter (fun q => wordHit q ing) = [] := by
            cases hl : rest.filter (fun q => wordHit q ing) with
            | nil => rfl
            | cons c t => rw [hl] at hfr; simp [List.getLast?] at hfr
          simp [hnil]
        | some q =>
          have hne : rest.filter (fun q => wordHit q ing) ≠ [] := by
            intro hnil; rw [hnil] at hfr; cases hfr
          cases hl : rest.filter (fun q => wordHit q ing) with
          | nil => exact absurd hl hne
          | cons c t =>
            rw [hl] at hfr
            rw [List.getLast?_cons_cons, hfr]
      · rw [List.filter_cons_of_neg (by simpa using hw), if_neg hw]

theorem classify_semi_visitor (pi : List NamedItem) (pantryNames : List String)
    (P : RecipeIngredient × String → Prop)
    (hstep : ∀ ing s,
      classifyScan pi (ingredientKey ing) pantryNames none = (false, some s) →
      P (ing, s)) :
    ∀ (ings : List RecipeIngredient) (acc : ClassifiedIngredients),
      (∀ e ∈ acc.semiMatched, P e) →
      ∀ e ∈ (List.foldl (classifyStep pi pantryNames) acc ings).semiMatched, P e := by
  intro ings
  induction ings with
  | nil => intro acc hacc e he; exact hacc e he
  | cons ing rest ih =>
    intro acc hacc e he
    rw [List.foldl_cons] at he
    refine ih _ ?_ e he
    intro e' he'
    unfold classifyStep at he'
    by_cases hk : ingredientKey ing = ""
    · rw [if_pos hk] at he'
      exact hacc e' he'
    · rw [if_neg hk] at he'
      cases hscan : classifyScan pi (ingredientKey ing) pantryNames none with
      | mk exact1 semi1 =>
        rw [hscan] at he'
        cases exact1 with
        | true => exact hacc e' he'
        | false =>
          cases semi1 with
          | none => exact hacc e' he'
          | some s =>
            simp only [List.mem_append, List.mem_singleton] at he'
            rcases he' with he' | he'
            · exact hacc e' he'
            · rw [he']
              exact hstep ing s hscan

set_option maxHeartbeats 2000000 in
theorem classify_semi_sound (ings : List RecipeIngredient) (pi : List NamedItem)
    (e : RecipeIngredient × String)
    (he : e ∈ (classifyIngredients ings pi).semiMatched) :
    (pi.map (fun p => lowerTrim p.name)).any
      (fun pn => wordHit pn (ingredientKey e.1) && (displayNameFor pi pn == e.2)) = true := by
  unfold classifyIngredients at he
  refine classify_semi_visitor pi (pi.map (fun p => lowerTrim p.name))
    (fun e => (pi.map (fun p => lowerTrim p.name)).any
      (fun pn => wordHit pn (ingredientKey e.1) && (displayNameFor pi pn == e.2)) = true)
    ?_ ings ⟨[], [], []⟩ (fun e he2 => by cases he2) e he
  intro ing s hscan
  have hchar := classifyScan_false_char pi (ingredientKey ing) _ _ _ hscan
  unfold lastHitAcc at hchar
  cases hfr : ((pi.map (fun p => lowerTrim p.name)).filter
      (fun pn => wordHit pn (ingredientKey ing))).getLast? with
  | none => rw [hfr] at hchar; cases hchar
  | some pn =>
    rw [hfr] at hchar
    injection hchar with hs
    have hpmem := List.mem_of_getLast?_eq_some hfr
    rw [List.mem_filter] at hpmem
    simp only [List.any_eq_true]
    exact ⟨pn, hpmem.1, by simp [hpmem.2, hs]⟩

-- ── Theorems: ingredient matcher claims ─────────────────────────────────────

/-- C3: the classifier never reports an incomplete ("semi") match without a
whole-word pairing: every such entry arises from a pantry name that passes
the word-boundary test against the ingredient and supplies the carried
display name; `findPantryMatch` returns items only on exact equality or the
same word-boundary test; and on the concrete foil/oil pair both the
classifier (missing 1, semi 0) and `findPantryMatch` (none) refuse the
boundary-free substring. -/
theorem classify_word_boundary_guard :
    ((classifyIngredients [⟨some "foil", none, none, none⟩] [⟨"oil"⟩]).missing.length = 1 ∧
      (classifyIngredients [⟨some "foil", none, none, none⟩] [⟨"oil"⟩]).semiMatched.length = 0) ∧
    (∀ (ings : List RecipeIngredient) (pi : List NamedItem) e,
      e ∈ (classifyIngredients ings pi).semiMatched →
      (pi.map (fun p => lowerTrim p.name)).any
        (fun pn => wordHit pn (ingredientKey e.1) && (displayNameFor pi pn == e.2)) = true) ∧
    (∀ (name : String) (pi : List PantryItem) (item : PantryItem),
      findPantryMatch name pi = some item →
      lowerTrim item.name = lowerTrim name ∨
        wordHit (lowerTrim item.name) (lowerTrim name) = true) ∧
    findPantryMatch "foil" [⟨1, "oil", some 1, some "ml", 0, none⟩] = none := by
  refine ⟨⟨by decide, by decide⟩, ?_, ?_, by decide⟩
  · exact fun ings pi e he => classify_semi_sound ings pi e he
  · intro name pi item h
    unfold findPantryMatch at h
    by_cases hempty : lowerTrim name = ""
    · rw [if_pos hempty] at h; cases h
    · rw [if_neg hempty] at h
      cases hex : pi.find? (fun it => lowerTrim it.name == lowerTrim name) with
      | some it =>
        rw [hex] at h
        injection h with h
        subst h
        exact Or.inl (by simpa using List.find?_some hex)
      | none =>
        rw [hex] at h
        have h2 : pi.find?
            (fun it => wordHit (lowerTrim it.name) (lowerTrim name)) = some item := h
        have h3 := List.find?_some h2
        exact Or.inr h3

/-- C3 witness: the general semi-match part applied at a real word-boundary
pairing (ingredient "chicken breast", inventory "chicken"). -/
theorem classify_word_boundary_guard_witness :
    (([⟨"chicken"⟩] : List NamedItem).map (fun p => lowerTrim p.name)).any
      (fun pn =>
        wordHit pn (ingredientKey ⟨some "chicken breast", none, none, none⟩) &&
          (displayNameFor [⟨"chicken"⟩] pn == "chicken")) = true :=
  classify_word_boundary_guard.2.1 [⟨some "chicken breast", none, none, none⟩]
    [⟨"chicken"⟩] (⟨some "chicken breast", none, none, none⟩, "chicken") (by decide)

/-- C4 counterexample: for ingredient "chicken broth" against inventory
["chicken", "broth"], the first inventory name satisfying the whole-word
test is "chicken" (shown satisfying it, with display name "chicken"), yet
the recorded semi-match entry carries "broth" — the scan overwrites the
accumulator on every hit, so the last satisfier wins, not the first. -/
theorem classify_semi_first_wins_cex :
    wordHit "chicken" "chicken broth" = true ∧
    displayNameFor [⟨"chicken"⟩, ⟨"broth"⟩] "chicken" = "chicken" ∧
    (classifyIngredients [⟨some "chicken broth", none, none, none⟩]
        [⟨"chicken"⟩, ⟨"broth"⟩]).semiMatched
      = [(⟨some "chicken broth", none, none, none⟩, "broth")] := by
  exact ⟨by decide, by decide, by decide⟩

set_option maxHeartbeats 2000000 in
/-- C4 (amended): when several inventory names satisfy the whole-word test
for an ingredient with no exact match, the recorded semi-match entry
carries the display name of the LAST such inventory name in iteration
order, not the first. -/
theorem classify_semi_last_wins (ings : List RecipeIngredient) (pi : List NamedItem)
    (e : RecipeIngredient × String)
    (he : e ∈ (classifyIngredients ings pi).semiMatched) :
    some e.2 = (((pi.map (fun p => lowerTrim p.name)).filter
      (fun pn => wordHit pn (ingredientKey e.1))).getLast?).map (displayNameFor pi) := by
  unfold classifyIngredients at he
  refine classify_semi_visitor pi (pi.map (fun p => lowerTrim p.name))
    (fun e => some e.2 = (((pi.map (fun p => lowerTrim p.name)).filter
      (fun pn => wordHit pn (ingredientKey e.1))).getLast?).map (displayNameFor pi))
    ?_ ings ⟨[], [], []⟩ (fun e he2 => by cases he2) e he
  intro ing s hscan
  have hchar := classifyScan_false_char pi (ingredientKey ing) _ _ _ hscan
  unfold lastHitAcc at hchar
  cases hfr : ((pi.map (fun p => lowerTrim p.name)).filter
      (fun pn => wordHit pn (ingredientKey ing))).getLast? with
  | none => rw [hfr] at hchar; cases hchar
  | some pn =>
    rw [hfr] at hchar
    simpa using hchar

/-- C4 (amended) witness: the chicken-broth instance, where the last
satisfier "broth" supplies the carried display name. -/
theorem classify_semi_last_wins_witness :
    some "broth" = (((([⟨"chicken"⟩, ⟨"broth"⟩] : List NamedItem).map
        (fun p => lowerTrim p.name)).filter
      (fun pn => wordHit pn
        (ingredientKey ⟨some "chicken broth", none, none, none⟩))).getLast?).map
      (displayNameFor [⟨"chicken"⟩, ⟨"broth"⟩]) :=
  classify_semi_last_wins [⟨some "chicken broth", none, none, none⟩]
    [⟨"chicken"⟩, ⟨"broth"⟩]
    (⟨some "chicken broth", none, none, none⟩, "broth") (by decide)

-- ── Helper lemmas: preview loop ─────────────────────────────────────────────

theorem processIngredient_eq_deduct (scale : ℚ) (pi : List PantryItem)
    (ing : RecipeIngredient) (item : PantryItem) (qty : ℚ) (pantryUnit : String)
    (amt : ℚ)
    (ht : jsTruthy ing.amount = true)
    (hm : findPantryMatch (cookIngredientName ing) pi = some item)
    (hq : item.quantity = some qty) (hu : item.unit = some pantryUnit)
    (hne : pantryUnit ≠ "")
    (ha : deductAmountOf scale ing pantryUnit = some amt) :
    processIngredient scale pi ing =
      .deduct
        ⟨item.id, item.name, cookIngredientName ing, round2 amt, pantryUnit, qty,
          round2 (max 0 (qty - amt))⟩
        (if item.isStaple = 1 ∧
            max 0 (qty - amt) < (9/10) * (item.originalQuantity.getD qty)
         then some ⟨item.name, round2 (max 0 (qty - amt)),
            item.originalQuantity.getD qty, pantryUnit⟩
         else none) := by
  unfold processIngredient
  rw [if_neg (by simp [ht])]
  simp only [hm, hq, hu]
  rw [if_neg hne]
  simp only [ha]

theorem processIngredient_deduct_inv (scale : ℚ) (pi : List PantryItem)
    (ing : RecipeIngredient) (d : Deduction) (rep : Option ReplenishItem)
    (h : processIngredient scale pi ing = .deduct d rep) :
    ∃ item qty pantryUnit amt,
      findPantryMatch (cookIngredientName ing) pi = some item ∧
      item.quantity = some qty ∧ item.unit = some pantryUnit ∧ pantryUnit ≠ "" ∧
      deductAmountOf scale ing pantryUnit = some amt ∧
      d = ⟨item.id, item.name, cookIngredientName ing, round2 amt, pantryUnit, qty,
          round2 (max 0 (qty - amt))⟩ ∧
      rep = (if item.isStaple = 1 ∧
            max 0 (qty - amt) < (9/10) * (item.originalQuantity.getD qty)
         then some ⟨item.name, round2 (max 0 (qty - amt)),
            item.originalQuantity.getD qty, pantryUnit⟩
         else none) := by
  unfold processIngredient at h
  by_cases ht : ¬ jsTruthy ing.amount
  · rw [if_pos ht] at h; cases h
  · rw [if_neg ht] at h
    cases hm : findPantryMatch (cookIngredientName ing) pi with
    | none => rw [hm] at h; cases h
    | some item =>
      simp only [hm] at h
      cases hq : item.quantity with
      | none => simp only [hq] at h; cases h
      | some qty =>
        cases hu : item.unit with
        | none => simp only [hq, hu] at h; cases h
        | some pantryUnit =>
          simp only [hq, hu] at h
          by_cases hne : pantryUnit = ""
          · rw [if_pos hne] at h; cases h
          · rw [if_neg hne] at h
            cases ha : deductAmountOf scale ing pantryUnit with
            | none => simp only [ha] at h; cases h
            | some amt =>
              simp only [ha] at h
              injection h with h1 h2
              exact ⟨item, qty, pantryUnit, amt, rfl, hq, hu, hne, ha, h1.symm, h2.symm⟩

theorem previewStep_requested (scale : ℚ) (pi : List PantryItem)
    (acc : CookPreview) (ing : RecipeIngredient) :
    (previewStep scale pi acc ing).requestedServings = acc.requestedServings := by
  unfold previewStep
  cases processIngredient scale pi ing <;> rfl

theorem preview_foldl_requested (scale : ℚ) (pi : List PantryItem) :
    ∀ (ings : List RecipeIngredient) (acc : CookPreview),
      (List.foldl (previewStep scale pi) acc ings).requestedServings =
        acc.requestedServings := by
  intro ings
  induction ings with
  | nil => intro acc; rfl
  | cons ing rest ih =>
    intro acc
    rw [List.foldl_cons, ih, previewStep_requested]

theorem previewCookCore_requested (recipe : Recipe) (pi : List PantryItem)
    (sv : Option ℚ) :
    (previewCookCore recipe pi sv).requestedServings =
      requestedServingsOf recipe sv := by
  unfold previewCookCore
  rw [preview_foldl_requested]

theorem preview_foldl_deduction_mem (scale : ℚ) (pi : List PantryItem) :
    ∀ (ings : List RecipeIngredient) (acc : CookPreview) (d : Deduction),
      d ∈ (List.foldl (previewStep scale pi) acc ings).deductions →
      d ∈ acc.deductions ∨
        ∃ ing, ing ∈ ings ∧ ∃ rep, processIngredient scale pi ing = .deduct d rep := by
  intro ings
  induction ings with
  | nil => intro acc d hd; exact Or.inl hd
  | cons ing rest ih =>
    intro acc d hd
    rw [List.foldl_cons] at hd
    rcases ih _ d hd with hacc | ⟨ing', hmem, rep, hp⟩
    · unfold previewStep at hacc
      cases hp : processIngredient scale pi ing with
      | skip s => rw [hp] at hacc; exact Or.inl hacc
      | deduct d' rep =>
        rw [hp] at hacc
        simp only [List.mem_append, List.mem_singleton] at hacc
        rcases hacc with hacc | hacc
        · exact Or.inl hacc
        · exact Or.inr ⟨ing, List.mem_cons_self ing rest, rep, by rw [hp, hacc]⟩
    · exact Or.inr ⟨ing', List.mem_cons_of_mem ing hmem, rep, hp⟩

theorem previewCookCore_deduction_mem (recipe : Recipe) (pi : List PantryItem)
    (sv : Option ℚ) (d : Deduction)
    (hd : d ∈ (previewCookCore recipe pi sv).deductions) :
    ∃ ing, ing ∈ recipe.ingredientsJson ∧
      ∃ rep, processIngredient (scaleOf recipe sv) pi ing = .deduct d rep := by
  unfold previewCookCore at hd
  rcases preview_foldl_deduction_mem _ _ _ _ _ hd with h | h
  · cases h
  · exact h

theorem round2_nonneg (q : ℚ) (h : 0 ≤ q) : 0 ≤ round2 q := by
  unfold round2
  have hfloor : (0 : ℤ) ≤ ⌊q * 100 + 1/2⌋ := by
    apply Int.floor_nonneg.2
    have : (0:ℚ) ≤ q * 100 := by positivity
    linarith
  have : (0:ℚ) ≤ (⌊q * 100 + 1/2⌋ : ℚ) := by exact_mod_cast hfloor
  linarith

/-- C1: after a deduction is computed, the matched item yields a replenish
candidate exactly when it is a staple and the unrounded post-deduction
quantity max(0, qty−amt) is strictly below 0.9 times the stored
originalQuantity (falling back to the pre-deduction quantity when unset);
concretely, a staple at 12/12 deducted by 3 lands in replenishItems and the
identical non-staple does not. -/
theorem staple_replenish_threshold :
    (∀ (scale : ℚ) (pi : List PantryItem) (ing : RecipeIngredient)
        (item : PantryItem) (qty : ℚ) (pantryUnit : String) (amt : ℚ),
      jsTruthy ing.amount = true →
      findPantryMatch (cookIngredientName ing) pi = some item →
      item.quantity = some qty → item.unit = some pantryUnit → pantryUnit ≠ "" →
      deductAmountOf scale ing pantryUnit = some amt →
      ((∃ d r, processIngredient scale pi ing = .deduct d (some r)) ↔
        (item.isStaple = 1 ∧
          max 0 (qty - amt) < (9/10) * (item.originalQuantity.getD qty)))) ∧
    (previewCookCore ⟨1, "Omelette", some 4, [⟨some "eggs", none, some 3, some "piece"⟩]⟩
        [⟨11, "eggs", some 12, some "piece", 1, some 12⟩] none).replenishItems
      = [⟨"eggs", 9, 12, "piece"⟩] ∧
    (previewCookCore ⟨1, "Omelette", some 4, [⟨some "eggs", none, some 3, some "piece"⟩]⟩
        [⟨11, "eggs", some 12, some "piece", 0, some 12⟩] none).replenishItems = [] := by
  refine ⟨?_, ?_, ?_⟩
  · intro scale pi ing item qty pantryUnit amt ht hm hq hu hne ha
    rw [processIngredient_eq_deduct scale pi ing item qty pantryUnit amt ht hm hq hu hne ha]
    by_cases hc : item.isStaple = 1 ∧
        max 0 (qty - amt) < (9/10) * (item.originalQuantity.getD qty)
    · rw [if_pos hc]
      exact ⟨fun _ => hc, fun _ => ⟨_, _, rfl⟩⟩
    · rw [if_neg hc]
      constructor
      · rintro ⟨d, r, hdr⟩
        injection hdr with h1 h2
        cases h2
      · intro h
        exact absurd h hc
  · have hm : findPantryMatch "eggs"
        [(⟨11, "eggs", some 12, some "piece", 1, some 12⟩ : PantryItem)]
        = some (⟨11, "eggs", some 12, some "piece", 1, some 12⟩ : PantryItem) := by decide
    have h1 := eq_false (show ¬ (("eggs":String) = "") from by decide)
    have h2 := eq_false (show ¬ (("piece":String) = "") from by decide)
    norm_num [previewCookCore, previewStep, processIngredient, hm, scaleOf,
      requestedServingsOf, jsOrNum, jsTruthy, cookIngredientName, jsOrStr,
      deductAmountOf, round2, h1, h2]
  · have hm : findPantryMatch "eggs"
        [(⟨11, "eggs", some 12, some "piece", 0, some 12⟩ : PantryItem)]
        = some (⟨11, "eggs", some 12, some "piece", 0, some 12⟩ : PantryItem) := by decide
    have h1 := eq_false (show ¬ (("eggs":String) = "") from by decide)
    have h2 := eq_false (show ¬ (("piece":String) = "") from by decide)
    norm_num [previewCookCore, previewStep, processIngredient, hm, scaleOf,
      requestedServingsOf, jsOrNum, jsTruthy, cookIngredientName, jsOrStr,
      deductAmountOf, round2, h1, h2]

/-- C1 witness: the threshold iff applied at the concrete staple example. -/
theorem staple_replenish_threshold_witness :
    (∃ d r, processIngredient 1 [⟨11, "eggs", some 12, some "piece", 1, some 12⟩]
        ⟨some "eggs", none, some 3, some "piece"⟩ = .deduct d (some r)) ↔
      ((⟨11, "eggs", some 12, some "piece", 1, some 12⟩ : PantryItem).isStaple = 1 ∧
        max 0 (12 - 3 * 1) < (9/10) *
          ((⟨11, "eggs", some 12, some "piece", 1, some 12⟩ :
            PantryItem).originalQuantity.getD 12)) :=
  staple_replenish_threshold.1 1 [⟨11, "eggs", some 12, some "piece", 1, some 12⟩]
    ⟨some "eggs", none, some 3, some "piece"⟩
    ⟨11, "eggs", some 12, some "piece", 1, some 12⟩ 12 "piece" (3 * 1)
    (by decide) (by decide) rfl rfl (by decide) rfl

/-- C5: requestedServings falls back from the explicit argument to the
recipe's serving count to 1 (JS truthiness, so an explicit 0 also falls
through); the scale is requested/recipeServings when the recipe serving
count is positive and 1 otherwise; concretely, a recipe with servings 4 and
a 400 g ingredient requested at 8 servings deducts 800 from a 500 g stock,
clamping newQuantity to 0. -/
theorem scaling_requested :
    (∀ (recipe : Recipe) (pi : List PantryItem) (r : ℚ), r ≠ 0 →
      (previewCookCore recipe pi (some r)).requestedServings = r) ∧
    (∀ (recipe : Recipe) (pi : List PantryItem) (s : ℚ),
      recipe.servings = some s → s ≠ 0 →
      (previewCookCore recipe pi none).requestedServings = s) ∧
    (∀ (recipe : Recipe) (pi : List PantryItem), recipe.servings = none →
      (previewCookCore recipe pi none).requestedServings = 1) ∧
    (∀ (recipe : Recipe) (sv : Option ℚ) (s : ℚ),
      recipe.servings = some s → 0 < s →
      scaleOf recipe sv = requestedServingsOf recipe sv / s) ∧
    (∀ (recipe : Recipe) (sv : Option ℚ) (s : ℚ),
      recipe.servings = some s → ¬ 0 < s → scaleOf recipe sv = 1) ∧
    (∀ (recipe : Recipe) (sv : Option ℚ), recipe.servings = none →
      scaleOf recipe sv = 1) ∧
    (previewCookCore ⟨1, "Pasta", some 4, [⟨some "pasta", none, some 400, some "g"⟩]⟩
        [⟨10, "pasta", some 500, some "g", 0, some 500⟩] (some 8)).deductions
      = [⟨10, "pasta", "pasta", 800, "g", 500, 0⟩] := by
  refine ⟨?_, ?_, ?_, ?_, ?_, ?_, ?_⟩
  · intro recipe pi r hr
    rw [previewCookCore_requested]
    unfold requestedServingsOf jsOrNum
    dsimp only
    rw [if_neg hr]
  · intro recipe pi s hs hs0
    rw [previewCookCore_requested]
    unfold requestedServingsOf jsOrNum
    rw [hs]
    dsimp only
    rw [if_neg hs0]
  · intro recipe pi hs
    rw [previewCookCore_requested]
    unfold requestedServingsOf jsOrNum
    rw [hs]
  · intro recipe sv s hs hpos
    unfold scaleOf
    rw [hs]
    dsimp only
    rw [if_pos hpos]
  · intro recipe sv s hs hpos
    unfold scaleOf
    rw [hs]
    dsimp only
    rw [if_neg hpos]
  · intro recipe sv hs
    unfold scaleOf
    rw [hs]
  · have hm : findPantryMatch "pasta"
        [(⟨10, "pasta", some 500, some "g", 0, some 500⟩ : PantryItem)]
        = some (⟨10, "pasta", some 500, some "g", 0, some 500⟩ : PantryItem) := by decide
    have h1 := eq_false (show ¬ (("pasta":String) = "") from by decide)
    have h2 := eq_false (show ¬ (("g":String) = "") from by decide)
    norm_num [previewCookCore, previewStep, processIngredient, hm, scaleOf,
      requestedServingsOf, jsOrNum, jsTruthy, cookIngredientName, jsOrStr,
      deductAmountOf, round2, h1, h2]

/-- C5 witness: the explicit-servings case applied at 8. -/
theorem scaling_requested_witness :
    (previewCookCore ⟨1, "Pasta", some 4, []⟩ [] (some 8)).requestedServings = 8 :=
  scaling_requested.1 ⟨1, "Pasta", some 4, []⟩ [] 8 (by decide)

/-- C6: the store's deduct computes newQuantity = max(0, oldQuantity −
amount), hence never negative; every preview deduction likewise records a
nonnegative newQuantity equal to the rounding of max(0, oldQuantity −
unrounded amount), with amountDeducted the rounding of that same amount. -/
theorem deduction_floor_zero :
    (∀ (store : List PantryItem) (id : Nat) (amount : ℚ)
        (res : DeductResult) (st2 : List PantryItem),
      deductQuantity store id amount = some (res, st2) →
      res.newQuantity = max 0 (res.oldQuantity - amount) ∧ 0 ≤ res.newQuantity) ∧
    (∀ (recipe : Recipe) (pi : List PantryItem) (sv : Option ℚ) (d : Deduction),
      d ∈ (previewCookCore recipe pi sv).deductions →
      0 ≤ d.newQuantity ∧
        ∃ a, d.amountDeducted = round2 a ∧
          d.newQuantity = round2 (max 0 (d.oldQuantity - a))) := by
  constructor
  · intro store id amount res st2 h
    unfold deductQuantity at h
    cases hf : store.find? (fun it => it.id == id) with
    | none => rw [hf] at h; cases h
    | some item =>
      rw [hf] at h
      injection h with h
      injection h with h1 h2
      subst h1
      exact ⟨rfl, le_max_left 0 _⟩
  · intro recipe pi sv d hd
    obtain ⟨ing, hmem, rep, hp⟩ := previewCookCore_deduction_mem recipe pi sv d hd
    obtain ⟨item, qty, pantryUnit, amt, hm, hq, hu, hne, ha, hdeq, hrep⟩ :=
      processIngredient_deduct_inv _ _ _ _ _ hp
    subst hdeq
    refine ⟨round2_nonneg _ (le_max_left 0 _), amt, rfl, rfl⟩

/-- C6 witness: the store-level formula at a concrete deduction. -/
theorem deduction_floor_zero_witness :
    (⟨⟨11, "eggs", some 12, some "piece", 1, some 12⟩, 12, max 0 (12 - 3), 12⟩ :
        DeductResult).newQuantity =
      max 0 ((⟨⟨11, "eggs", some 12, some "piece", 1, some 12⟩, 12,
        max 0 (12 - 3), 12⟩ : DeductResult).oldQuantity - 3) ∧
    0 ≤ (⟨⟨11, "eggs", some 12, some "piece", 1, some 12⟩, 12,
        max 0 (12 - 3), 12⟩ : DeductResult).newQuantity :=
  deduction_floor_zero.1 [⟨11, "eggs", some 12, some "piece", 1, some 12⟩] 11 3
    ⟨⟨11, "eggs", some 12, some "piece", 1, some 12⟩, 12, max 0 (12 - 3), 12⟩
    [⟨11, "eggs", some (max 0 (12 - 3)), some "piece", 1, some 12⟩] rfl

-- ── Helper lemmas: commit phase ─────────────────────────────────────────────

theorem deductQuantity_eq_none_iff (store : List PantryItem) (id : Nat) (amount : ℚ) :
    deductQuantity store id amount = none ↔
      store.find? (fun it => it.id == id) = none := by
  unfold deductQuantity
  cases store.find? (fun it => it.id == id) <;> simp

theorem deductQuantity_preserves_ids (store : List PantryItem) (id : Nat)
    (amount : ℚ) (res : DeductResult) (st2 : List PantryItem)
    (h : deductQuantity store id amount = some (res, st2)) :
    ∀ x, st2.any (fun it => it.id == x) = store.any (fun it => it.id == x) := by
  unfold deductQuantity at h
  cases hf : store.find? (fun it => it.id == id) with
  | none => rw [hf] at h; cases h
  | some item =>
    rw [hf] at h
    injection h with h
    injection h with h1 h2
    have hid : item.id = id := by
      have := List.find?_some hf
      simpa using this
    subst h2
    intro x
    have : ∀ (l : List PantryItem),
        (l.map (fun it => if it.id = id then
          { item with
              quantity := some (max 0 (item.quantity.getD 0 - amount)),
              originalQuantity :=
                match item.originalQuantity with
                | none => some (item.quantity.getD 0)
                | some q => some q } else it)).any (fun it => it.id == x) =
          l.any (fun it => it.id == x) := by
      intro l
      induction l with
      | nil => rfl
      | cons a t iht =>
        simp only [List.map_cons, List.any_cons, iht]
        by_cases ha : a.id = id
        · simp [ha, hid]
        · simp [ha]
    exact this store

theorem commit_executed_length :
    ∀ (ds : List Deduction) (store : List PantryItem),
      (commitDeductions store ds).executed.length =
        (ds.filter (fun d => store.any (fun it => it.id == d.pantryItemId))).length := by
  intro ds
  induction ds with
  | nil => intro store; rfl
  | cons d rest ih =>
    intro store
    rw [commitDeductions]
    cases hdq : deductQuantity store d.pantryItemId d.amountDeducted with
    | none =>
      have hfnone := (deductQuantity_eq_none_iff _ _ _).1 hdq
      rw [List.find?_eq_none] at hfnone
      have hanyf : ¬ (store.any (fun it => it.id == d.pantryItemId) = true) := by
        simp only [List.any_eq_true, not_exists]
        intro x
        intro hx
        exact absurd hx.2 (hfnone x hx.1)
      dsimp only
      rw [@List.filter_cons_of_neg Deduction
        (fun d2 => store.any (fun it => it.id == d2.pantryItemId)) d rest hanyf]
      exact ih store
    | some pres =>
      obtain ⟨res, st2⟩ := pres
      have hany : store.any (fun it => it.id == d.pantryItemId) = true := by
        cases hf2 : store.find? (fun it => it.id == d.pantryItemId) with
        | none =>
          rw [(deductQuantity_eq_none_iff store d.pantryItemId d.amountDeducted).2 hf2]
            at hdq
          cases hdq
        | some it =>
          have hmem := List.mem_of_find?_eq_some hf2
          have hp := List.find?_some hf2
          exact List.any_eq_true.2 ⟨it, hmem, hp⟩
      dsimp only
      rw [@List.filter_cons_of_pos Deduction
        (fun d2 => store.any (fun it => it.id == d2.pantryItemId)) d rest hany]
      simp only [List.length_cons]
      have hfc : rest.filter (fun d2 => st2.any (fun it => it.id == d2.pantryItemId)) =
          rest.filter (fun d2 => store.any (fun it => it.id == d2.pantryItemId)) :=
        List.filter_congr (fun x _ => by
          rw [deductQuantity_preserves_ids store d.pantryItemId d.amountDeducted
            res st2 hdq])
      have := ih st2
      rw [hfc] at this
      rw [← this]

/-- C9: the replenish append step never emits an item whose normalized name
equals an existing list item's normalized name; every appended item comes
from a candidate and carries amount = that candidate's originalQuantity;
and re-running the step after its own output has been appended emits
nothing, so repeating the same candidates yields no duplicates. -/
theorem replenish_append_guard :
    (∀ (ex : List GroceryItem) (cands : List ReplenishItem) (t : String)
        (g e : GroceryItem), g ∈ replenishAppendStep ex cands t → e ∈ ex →
      lowerTrim g.name ≠ lowerTrim e.name) ∧
    (∀ (ex : List GroceryItem) (cands : List ReplenishItem) (t : String)
        (g : GroceryItem), g ∈ replenishAppendStep ex cands t →
      ∃ c, c ∈ cands ∧ g.name = c.name ∧ g.amount = c.originalQuantity ∧
        g.unit = c.unit ∧ g.sourceRecipeTitle = t) ∧
    (∀ (ex : List GroceryItem) (cands : List ReplenishItem) (t t2 : String),
      replenishAppendStep (ex ++ replenishAppendStep ex cands t) cands t2 = []) := by
  have hmem : ∀ (ex : List GroceryItem) (cands : List ReplenishItem) (t : String)
      (g : GroceryItem), g ∈ replenishAppendStep ex cands t →
      ∃ c, c ∈ cands ∧
        (¬ lowerTrim c.name ∈ ex.map (fun i => lowerTrim i.name)) ∧
        g = ⟨c.name, c.originalQuantity, c.unit, t⟩ := by
    intro ex cands t g hg
    unfold replenishAppendStep at hg
    simp only [List.mem_map, List.mem_filter] at hg
    obtain ⟨c, ⟨hc_mem, hc_notin⟩, hgc⟩ := hg
    refine ⟨c, hc_mem, ?_, hgc.symm⟩
    simp only [Bool.not_eq_true'] at hc_notin
    intro habs
    have h2 : List.elem (lowerTrim c.name) (ex.map (fun i => lowerTrim i.name)) = true :=
      List.elem_iff.2 habs
    have h3 : List.elem (lowerTrim c.name) (ex.map (fun i => lowerTrim i.name)) = false :=
      hc_notin
    rw [h2] at h3
    cases h3
  refine ⟨?_, ?_, ?_⟩
  · intro ex cands t g e hg he
    obtain ⟨c, _, hnotin, hgc⟩ := hmem ex cands t g hg
    rw [hgc]
    intro habs
    exact hnotin (List.mem_map.2 ⟨e, he, habs.symm⟩)
  · intro ex cands t g hg
    obtain ⟨c, hc, _, hgc⟩ := hmem ex cands t g hg
    exact ⟨c, hc, by rw [hgc], by rw [hgc], by rw [hgc], by rw [hgc]⟩
  · intro ex cands t t2
    unfold replenishAppendStep
    rw [List.map_eq_nil_iff, List.filter_eq_nil_iff]
    intro c hc
    simp only [Bool.not_eq_true', Bool.not_eq_false]
    refine List.elem_iff.2 ?_
    rw [List.map_append]
    by_cases hin : lowerTrim c.name ∈ ex.map (fun i => lowerTrim i.name)
    · exact List.mem_append.2 (Or.inl hin)
    · have hstep : (⟨c.name, c.originalQuantity, c.unit, t⟩ : GroceryItem) ∈
          replenishAppendStep ex cands t := by
        unfold replenishAppendStep
        refine List.mem_map.2 ⟨c, List.mem_filter.2 ⟨hc, ?_⟩, rfl⟩
        simp only [Bool.not_eq_true']
        cases helem : List.elem (lowerTrim c.name) (ex.map (fun i => lowerTrim i.name)) with
        | false => exact helem
        | true => exact absurd (List.elem_iff.1 helem) hin
      refine List.mem_append.2 (Or.inr ?_)
      exact List.mem_map.2 ⟨_, hstep, rfl⟩

/-- C9 witness: with "milk" already on the list, an appended "eggs" item is
distinct from it, originates from the candidate list with amount = its
originalQuantity, and a second run after the append emits nothing. -/
theorem replenish_append_guard_witness :
    lowerTrim (⟨"eggs", 12, "piece", "Omelette"⟩ : GroceryItem).name ≠
      lowerTrim (⟨"milk", 2, "l", "old"⟩ : GroceryItem).name ∧
    replenishAppendStep
      ([⟨"milk", 2, "l", "old"⟩] ++
        replenishAppendStep [⟨"milk", 2, "l", "old"⟩] [⟨"eggs", 9, 12, "piece"⟩]
          "Omelette")
      [⟨"eggs", 9, 12, "piece"⟩] "Omelette" = [] := by
  constructor
  · exact replenish_append_guard.1 [⟨"milk", 2, "l", "old"⟩] [⟨"eggs", 9, 12, "piece"⟩]
      "Omelette" ⟨"eggs", 12, "piece", "Omelette"⟩ ⟨"milk", 2, "l", "old"⟩
      (by decide) (by decide)
  · exact replenish_append_guard.2.2 [⟨"milk", 2, "l", "old"⟩] [⟨"eggs", 9, 12, "piece"⟩]
      "Omelette" "Omelette"

/-- C2: the deduction that confirmCook reports for the store's response is
re-derived from the store's then-current record — oldQuantity is the stored
quantity and newQuantity is max(0, that − amountDeducted) — regardless of
the oldQuantity/newQuantity figures carried by the previewed deduction; the
post-commit staple re-check likewise uses the store's returned newQuantity
and originalQuantity. -/
theorem commit_rederives :
    (∀ (store : List PantryItem) (d : Deduction) (rest : List Deduction)
        (item : PantryItem),
      store.find? (fun it => it.id == d.pantryItemId) = some item →
      ((commitDeductions store (d :: rest)).executed.head? =
        some { d with oldQuantity := item.quantity.getD 0,
                      newQuantity := max 0 (item.quantity.getD 0 - d.amountDeducted) }) ∧
      (item.isStaple = 1 ∧
          max 0 (item.quantity.getD 0 - d.amountDeducted) <
            (9/10) * (item.originalQuantity.getD (item.quantity.getD 0)) →
        (commitDeductions store (d :: rest)).replenish.head? =
          some ⟨item.name, round2 (max 0 (item.quantity.getD 0 - d.amountDeducted)),
            item.originalQuantity.getD (item.quantity.getD 0), jsOrStr item.unit ""⟩)) ∧
    (∀ (store : List PantryItem) (ds : List Deduction) (e : Deduction),
      e ∈ (commitDeductions store ds).executed →
      e.newQuantity = max 0 (e.oldQuantity - e.amountDeducted)) := by
  constructor
  · intro store d rest item hf
    rw [commitDeductions]
    unfold deductQuantity
    rw [hf]
    dsimp only
    refine ⟨rfl, ?_⟩
    intro hc
    rw [if_pos hc]
    rfl
  · intro store ds
    induction ds generalizing store with
    | nil => intro e he; cases he
    | cons d rest ih =>
      intro e he
      rw [commitDeductions] at he
      cases hdq : deductQuantity store d.pantryItemId d.amountDeducted with
      | none =>
        simp only [hdq] at he
        exact ih _ e he
      | some pres =>
        obtain ⟨res, st2⟩ := pres
        simp only [hdq] at he
        rcases List.mem_cons.1 he with hhead | htail
        · subst hhead
          unfold deductQuantity at hdq
          cases hf : store.find? (fun it => it.id == d.pantryItemId) with
          | none => rw [hf] at hdq; cases hdq
          | some item =>
            rw [hf] at hdq
            injection hdq with hdq
            injection hdq with h1 h2
            rw [← h1]
        · exact ih _ e htail

/-- C2 witness: the pantry item now holds 10 although the previewed
deduction claims oldQuantity 500 / newQuantity 497; the reported figures
come from the store (10 and max(0, 10−3)), and the staple re-check fires on
the store's values. -/
theorem commit_rederives_witness :
    ((commitDeductions [⟨10, "pasta", some 10, some "g", 1, some 12⟩]
        [⟨10, "pasta", "pasta", 3, "g", 500, 497⟩]).executed.head? =
      some ⟨10, "pasta", "pasta", 3, "g",
        ((⟨10, "pasta", some 10, some "g", 1, some 12⟩ : PantryItem).quantity.getD 0),
        max 0 (((⟨10, "pasta", some 10, some "g", 1, some 12⟩ :
          PantryItem).quantity.getD 0) - 3)⟩) ∧
    ((commitDeductions [⟨10, "pasta", some 10, some "g", 1, some 12⟩]
        [⟨10, "pasta", "pasta", 3, "g", 500, 497⟩]).replenish.head? =
      some ⟨"pasta",
        round2 (max 0 (((⟨10, "pasta", some 10, some "g", 1, some 12⟩ :
          PantryItem).quantity.getD 0) - 3)),
        ((⟨10, "pasta", some 10, some "g", 1, some 12⟩ :
          PantryItem).originalQuantity.getD
          ((⟨10, "pasta", some 10, some "g", 1, some 12⟩ :
            PantryItem).quantity.getD 0)),
        jsOrStr ((⟨10, "pasta", some 10, some "g", 1, some 12⟩ :
          PantryItem).unit) ""⟩) := by
  have h := commit_rederives.1 [⟨10, "pasta", some 10, some "g", 1, some 12⟩]
    ⟨10, "pasta", "pasta", 3, "g", 500, 497⟩ []
    ⟨10, "pasta", some 10, some "g", 1, some 12⟩ (by decide)
  exact ⟨h.1, h.2 (by norm_num)⟩

/-- C10: the commit loop executes exactly the previewed deductions whose
pantry item id exists in the then-current store — one whose item has
vanished is silently omitted (the loop produces no skip records at all) —
and confirmCook returns that executed list together with the skipped list
copied verbatim from the preview; so a vanished item surfaces neither as a
deduction nor as a skip. -/
theorem confirm_omits_vanished :
    (∀ (store : List PantryItem) (ds : List Deduction),
      (commitDeductions store ds).executed.length =
        (ds.filter (fun d => store.any (fun it => it.id == d.pantryItemId))).length) ∧
    (∀ (recipe : Recipe) (store : List PantryItem) (exList : List GroceryItem)
        (listId : Nat) (sv : Option ℚ),
      ((confirmCookCore recipe store exList listId sv).1.toCookPreview.skipped =
        (previewCookCore recipe store sv).skipped) ∧
      ((confirmCookCore recipe store exList listId sv).1.toCookPreview.deductions =
        (commitDeductions store (previewCookCore recipe store sv).deductions).executed)) := by
  constructor
  · intro store ds
    exact commit_executed_length ds store
  · intro recipe store exList listId sv
    unfold confirmCookCore
    dsimp only
    split
    · exact ⟨rfl, rfl⟩
    · exact ⟨rfl, rfl⟩
